import Mathlib

/-!
# react-demo: the logging callback, the weather tool and the streaming caller

A shallow embedding of `react-demo/main.go`.

A Go function is embedded as a pure function that yields a `Run`: the list of
observable calls it makes, in program order, and the way it stops (it returns,
a panic leaves it, or it is stuck for ever in a blocking call).  `defer` and
`recover` are the two combinators `deferred` and `deferredRecover`.

What the program gets from outside is a parameter of the embedding:

* a stream reader is the list of results of its successive `Recv` calls and the
  behaviour of its `Close`; a `Recv` made after the list is used up never returns;
* `json.Marshal`, `json.MarshalIndent`, `url.PathEscape` and
  `http.DefaultClient.Get` are functions handed in by the caller;
* `react.GraphName` is the parameter `graphInfoName`, the name of the local
  variable that holds it in the source.
-/

namespace ReactDemo

/-! ## Observable calls and runs -/

/-- One operand of a print call: a text, or a pointer (printed as an address). -/
inductive Arg where
  | text (s : String)
  | pointer
  deriving DecidableEq, Repr

instance : Coe String Arg := ⟨Arg.text⟩

/-- The calls of the program that a run records, in program order. -/
inductive Event where
  /-- `Recv()` is called on the stream reader. -/
  | Recv
  /-- `Close()` is called on the stream reader. -/
  | Close
  /-- `fmt.Println(args...)`. -/
  | Println (args : List Arg)
  /-- `fmt.Printf(format, args...)`. -/
  | Printf (format : String) (args : List Arg)
  /-- `log.Println(args...)`. -/
  | logPrintln (args : List Arg)
  /-- `log.Printf(format, args...)`. -/
  | logPrintf (format : String) (args : List Arg)
  /-- `http.DefaultClient.Get(url)`. -/
  | Get (url : String)
  /-- `io.ReadAll(resp.Body)`. -/
  | ReadAll
  /-- `resp.Body.Close()`. -/
  | BodyClose
  /-- `time.Sleep(d)`, with `d` in seconds. -/
  | Sleep (seconds : Nat)
  /-- A panic with value `v` starts here. -/
  | raise (v : String)
  deriving DecidableEq, Repr

/-- How a function body or a goroutine stops. -/
inductive Outcome (α : Type) where
  /-- It returns `a`. -/
  | returned (a : α)
  /-- A panic with value `v` is leaving it. -/
  | panicking (v : String)
  /-- It is stuck for ever inside a call that never returns. -/
  | blocked
  deriving DecidableEq, Repr

/-- The calls made by a piece of code and the way it stops. -/
structure Run (α : Type) where
  trace : List Event
  result : Outcome α
  deriving DecidableEq, Repr

/-- The value of a panic raised by dereferencing a nil pointer. -/
def nilDereference : String :=
  "runtime error: invalid memory address or nil pointer dereference"

/-- `defer call` around `body`: once `body` returns or panics, `call` runs; a panic
of `call` replaces the outcome of `body`.  A blocked `body` never reaches it. -/
def deferred {α : Type} (body : Run α) (call : Run Unit) : Run α :=
  match body.result with
  | .blocked => body
  | r =>
    match call.result with
    | .returned _ => ⟨body.trace ++ call.trace, r⟩
    | .panicking v => ⟨body.trace ++ call.trace, .panicking v⟩
    | .blocked => ⟨body.trace ++ call.trace, .blocked⟩

/-- `defer func() { if err := recover(); err != nil { handler(err) } }()` around the
body of a function without results: a panic that is leaving `body` stops here,
`handler` runs on its value and the function returns. -/
def deferredRecover (body : Run Unit) (handler : String → List Event) : Run Unit :=
  match body.result with
  | .panicking v => ⟨body.trace ++ handler v, .returned ()⟩
  | _ => body

/-! ## Values of the libraries the program uses -/

/-- One result of `Recv()` on a `*schema.StreamReader[T]`. -/
inductive RecvResult (T : Type) where
  /-- `(v, nil)`. -/
  | frame (v : T)
  /-- An error `err` with `errors.Is(err, io.EOF)`. -/
  | EOF
  /-- Any other non-nil error, with its message. -/
  | err (msg : String)
  /-- The call panics with value `v`. -/
  | raise (v : String)
  deriving DecidableEq, Repr

/-- A `*schema.StreamReader[T]` as its user sees it: the results of the successive
`Recv` calls (a `Recv` after the last of them never returns) and whether `Close`
returns (`none`) or panics (`some v`). -/
structure StreamReader (T : Type) where
  recvs : List (RecvResult T)
  close : Option String

/-- The call `sr.Close()`. -/
def StreamReader.Close {T : Type} (sr : StreamReader T) : Run Unit :=
  match sr.close with
  | none => ⟨[.Close], .returned ()⟩
  | some v => ⟨[.Close, .raise v], .panicking v⟩

/-- The result of `json.Marshal(v)` or `json.MarshalIndent(v, ...)`. -/
inductive MarshalResult where
  /-- `(s, nil)`. -/
  | ok (s : String)
  /-- `(nil, err)`, with the message of `err`. -/
  | err (msg : String)
  /-- The call panics with value `v`. -/
  | raise (v : String)
  deriving DecidableEq, Repr

/-- The struct `callbacks.RunInfo`; `Typ` is its field `Type`. -/
structure RunInfo where
  Name : String
  Typ : String
  Component : String
  deriving DecidableEq, Repr

/-- The struct `schema.Message`, as far as `main` reads it. -/
structure Message where
  Role : String
  Content : String
  deriving DecidableEq, Repr

/-- How the body of a `for` loop hands control back: `break` or `return`. -/
inductive LoopEnd where
  | breaks
  | returns
  deriving DecidableEq, Repr

/-! ## `QueryWeatherFunc` -/

/-- The struct `QueryWeatherParams`: `City` is a `*string`, `none` is nil. -/
structure QueryWeatherParams where
  City : Option String
  deriving DecidableEq, Repr

/-- What a successful `Get` hands back, as far as the tool uses it: the result
`(data, err)` of `io.ReadAll(resp.Body)`. -/
structure Response where
  data : String
  readErr : Option String
  deriving DecidableEq, Repr

/-- The value of `reqUrl` once `*params.City` was read as `city`: the default
location, or the escaped city when `len(city) > 0`. -/
def QueryWeatherFunc.reqUrl (PathEscape : String → String) (city : String) : String :=
  if city.utf8ByteSize > 0 then "https://wttr.in/" ++ PathEscape city ++ "?T"
  else "https://wttr.in/?T"

/-- The function `QueryWeatherFunc`; the result pairs the reply with the error
(`none` is a nil error). -/
def QueryWeatherFunc (PathEscape : String → String)
    (Get : String → Except String Response) (params : QueryWeatherParams) :
    Run (String × Option String) :=
  match params.City with
  | none =>
    -- `*params.City` with a nil `City`
    ⟨[.logPrintln ["querying weather"], .raise nilDereference], .panicking nilDereference⟩
  | some city =>
    let reqUrl := QueryWeatherFunc.reqUrl PathEscape city
    let start : List Event :=
      .logPrintln ["querying weather"] ::
        (if city.utf8ByteSize > 0 then [.logPrintln ["request url", reqUrl]] else [])
    match Get reqUrl with
    | .error e => ⟨start ++ [.Get reqUrl, .raise e], .panicking e⟩
    | .ok resp =>
      deferred
        (match resp.readErr with
          | some e => ⟨start ++ [.Get reqUrl, .ReadAll, .raise e], .panicking e⟩
          | none =>
            ⟨start ++ [.Get reqUrl, .ReadAll,
                .logPrintln ["weather of", Arg.pointer, resp.data]],
              .returned (resp.data, none)⟩)
        ⟨[.BodyClose], .returned ()⟩

/-! ## `main`, from the call of `ragent.Stream` on -/

/-- The `for` loop of `main` over the results of `sr.Recv()`. -/
def main.loop : List (RecvResult Message) → Run LoopEnd
  | [] => ⟨[.Recv], .blocked⟩
  | .EOF :: _ => ⟨[.Recv], .returned .breaks⟩
  | .err msg :: _ => ⟨[.Recv, .logPrintf "failed to recv: %v" [msg]], .returned .returns⟩
  | .raise v :: _ => ⟨[.Recv, .raise v], .panicking v⟩
  | .frame msg :: rest =>
    let next := main.loop rest
    ⟨.Recv :: .logPrintf "%v" [msg.Content] :: next.trace, next.result⟩

/-- The part of `main` that follows `defer sr.Close()`. -/
def main.body (sr : StreamReader Message) : Run Unit :=
  let loop := main.loop sr.recvs
  let start : List Event := .logPrintf "\n\n===== start streaming =====\n\n" [] :: loop.trace
  match loop.result with
  | .returned .breaks =>
    ⟨start ++ [.logPrintf "\n\n===== finished =====\n" [], .Sleep 2], .returned ()⟩
  | .returned .returns => ⟨start, .returned ()⟩
  | .panicking v => ⟨start, .panicking v⟩
  | .blocked => ⟨start, .blocked⟩

/-- The function `main` from the call of `ragent.Stream` on; `Stream` is what that
call hands back. -/
def main (Stream : Except String (StreamReader Message)) : Run Unit :=
  match Stream with
  | .error e => ⟨[.logPrintf "failed to stream: %v" [e]], .returned ()⟩
  | .ok sr => deferred (main.body sr) sr.Close

/-! ## `LoggerCallback` -/

/-- The method `LoggerCallback.OnStart`. -/
def OnStart {C I : Type} (MarshalIndent : I → MarshalResult)
    (ctx : C) (_info : Option RunInfo) (input : I) : Run C :=
  match MarshalIndent input with
  | .ok s => ⟨[.Println ["=================="], .Printf "[OnStart] %s\n" [s]], .returned ctx⟩
  | .err _ => ⟨[.Println ["=================="], .Printf "[OnStart] %s\n" [""]], .returned ctx⟩
  | .raise v => ⟨[.Println ["=================="], .raise v], .panicking v⟩

/-- The method `LoggerCallback.OnEnd`. -/
def OnEnd {C O : Type} (MarshalIndent : O → MarshalResult)
    (ctx : C) (_info : Option RunInfo) (output : O) : Run C :=
  match MarshalIndent output with
  | .ok s => ⟨[.Println ["=========[OnEnd]========="], .Println [s]], .returned ctx⟩
  | .err _ => ⟨[.Println ["=========[OnEnd]========="], .Println [""]], .returned ctx⟩
  | .raise v => ⟨[.Println ["=========[OnEnd]========="], .raise v], .panicking v⟩

/-- The method `LoggerCallback.OnError`; `err` is the error as `fmt` prints it. -/
def OnError {C : Type} (ctx : C) (_info : Option RunInfo) (err : String) : Run C :=
  ⟨[.Println ["=========[OnError]========="], .Println [err]], .returned ctx⟩

/-- The `for` loop of the goroutine of `OnEndWithStreamOutput` over the results of
`output.Recv()`. -/
def OnEndWithStreamOutput.loop {T : Type} (Marshal : T → MarshalResult)
    (info : Option RunInfo) (graphInfoName : String) : List (RecvResult T) → Run LoopEnd
  | [] => ⟨[.Recv], .blocked⟩
  | .EOF :: _ => ⟨[.Recv], .returned .breaks⟩
  | .err msg :: _ => ⟨[.Recv, .Printf "internal error: %s\n" [msg]], .returned .returns⟩
  | .raise v :: _ => ⟨[.Recv, .raise v], .panicking v⟩
  | .frame frame :: rest =>
    match Marshal frame with
    | .err msg => ⟨[.Recv, .Printf "internal error: %s\n" [msg]], .returned .returns⟩
    | .raise v => ⟨[.Recv, .raise v], .panicking v⟩
    | .ok s =>
      match info with
      | none => ⟨[.Recv, .raise nilDereference], .panicking nilDereference⟩
      | some i =>
        let next := OnEndWithStreamOutput.loop Marshal info graphInfoName rest
        if i.Name = graphInfoName then
          ⟨.Recv :: .Printf "%s: %s\n" [i.Name, s] :: next.trace, next.result⟩
        else
          ⟨.Recv :: next.trace, next.result⟩

/-- The body of the goroutine of `OnEndWithStreamOutput` below its two `defer`s. -/
def OnEndWithStreamOutput.body {T : Type} (Marshal : T → MarshalResult)
    (info : Option RunInfo) (graphInfoName : String) (output : StreamReader T) : Run Unit :=
  let loop := OnEndWithStreamOutput.loop Marshal info graphInfoName output.recvs
  let trace : List Event := .Println ["=========[OnEndStream]========="] :: loop.trace
  match loop.result with
  | .returned _ => ⟨trace, .returned ()⟩
  | .panicking v => ⟨trace, .panicking v⟩
  | .blocked => ⟨trace, .blocked⟩

/-- The goroutine `go func() { ... }()` of `OnEndWithStreamOutput`. -/
def OnEndWithStreamOutput.task {T : Type} (Marshal : T → MarshalResult)
    (info : Option RunInfo) (graphInfoName : String) (output : StreamReader T) : Run Unit :=
  deferredRecover
    (deferred (OnEndWithStreamOutput.body Marshal info graphInfoName output) output.Close)
    (fun v => [.Println ["[OnEndStream] panic err:", v]])

/-- A call that may start goroutines: the run of the call itself, on the path of
its caller, and the runs of the goroutines it starts. -/
structure HookRun (C : Type) where
  caller : Run C
  spawned : List (Run Unit)

/-- The method `LoggerCallback.OnEndWithStreamOutput`. -/
def OnEndWithStreamOutput {C T : Type} (Marshal : T → MarshalResult) (graphInfoName : String)
    (ctx : C) (info : Option RunInfo) (output : StreamReader T) : HookRun C :=
  { caller := ⟨[], .returned ctx⟩
    spawned := [OnEndWithStreamOutput.task Marshal info graphInfoName output] }

/-- The method `LoggerCallback.OnStartWithStreamInput`. -/
def OnStartWithStreamInput {C T : Type}
    (ctx : C) (_info : Option RunInfo) (input : StreamReader T) : Run C :=
  deferred ⟨[], .returned ctx⟩ input.Close

/-! ## Reading a trace -/

/-- A frame line: the call `fmt.Printf("%s: %s\n", info.Name, string(s))`. -/
def isFrameLine : Event → Bool
  | .Printf "%s: %s\n" _ => true
  | _ => false

/-- A message line of `main`: the call `log.Printf("%v", msg.Content)`. -/
def isMessageLine : Event → Bool
  | .logPrintf "%v" _ => true
  | _ => false

/-- A panic starts at this event. -/
def isRaise : Event → Bool
  | .raise _ => true
  | _ => false

/-! ## Lists -/

theorem getLast?_cons_append {α : Type} (a : α) (l : List α) (b : α) (m : List α) :
    (a :: (l ++ b :: m)).getLast? = (b :: m).getLast? := by
  rw [← List.cons_append, List.getLast?_append_cons]

/-- In a list whose first `c` is followed by no `r`, no `r` follows any `c`. -/
theorem not_mem_after {α : Type} (c r : α) (A B pre post : List α)
    (hA : c ∉ A) (hB : r ∉ B) (h : A ++ c :: B = pre ++ c :: post) : r ∉ post := by
  rcases List.append_eq_append_iff.mp h with ⟨m, _, hm⟩ | ⟨m, hm, hm2⟩
  · cases m with
    | nil =>
      simp only [List.nil_append, List.cons.injEq, true_and] at hm
      rwa [← hm]
    | cons x xs =>
      simp only [List.cons_append, List.cons.injEq] at hm
      intro hr
      exact hB (by rw [hm.2]; simp [hr])
  · cases m with
    | nil =>
      simp only [List.nil_append, List.cons.injEq, true_and] at hm2
      rwa [hm2]
    | cons x xs =>
      simp only [List.cons_append, List.cons.injEq] at hm2
      exact absurd (by rw [hm, hm2.1]; simp) hA

/-! ## The loops -/

section Loops

variable {T : Type} (Marshal : T → MarshalResult) (info : Option RunInfo) (graphInfoName : String)

theorem OnEndWithStreamOutput.loop_not_Close (l : List (RecvResult T)) :
    Event.Close ∉ (OnEndWithStreamOutput.loop Marshal info graphInfoName l).trace := by
  induction l with
  | nil => simp [OnEndWithStreamOutput.loop]
  | cons r rest ih =>
    cases r with
    | EOF => simp [OnEndWithStreamOutput.loop]
    | err msg => simp [OnEndWithStreamOutput.loop]
    | raise v => simp [OnEndWithStreamOutput.loop]
    | frame f =>
      simp only [OnEndWithStreamOutput.loop]
      split
      · simp
      · simp
      · split
        · simp
        · split <;> simpa using ih

theorem OnEndWithStreamOutput.loop_raises (l : List (RecvResult T)) :
    (OnEndWithStreamOutput.loop Marshal info graphInfoName l).trace.filter isRaise =
      match (OnEndWithStreamOutput.loop Marshal info graphInfoName l).result with
      | .panicking v => [.raise v]
      | _ => [] := by
  induction l with
  | nil => simp [OnEndWithStreamOutput.loop, isRaise]
  | cons r rest ih =>
    cases r with
    | EOF => simp [OnEndWithStreamOutput.loop, isRaise]
    | err msg => simp [OnEndWithStreamOutput.loop, isRaise]
    | raise v => simp [OnEndWithStreamOutput.loop, isRaise]
    | frame f =>
      simp only [OnEndWithStreamOutput.loop]
      split
      · simp [isRaise]
      · simp [isRaise]
      · split
        · simp [isRaise]
        · split <;> simpa [isRaise] using ih

/-- The loop is stuck only after it went through the whole list of results, all of
them frames that marshal. -/
theorem OnEndWithStreamOutput.loop_blocked (l : List (RecvResult T))
    (h : (OnEndWithStreamOutput.loop Marshal info graphInfoName l).result = .blocked) :
    ∀ r ∈ l, ∃ f s, r = .frame f ∧ Marshal f = .ok s := by
  induction l with
  | nil => simp
  | cons r rest ih =>
    cases r with
    | EOF => simp [OnEndWithStreamOutput.loop] at h
    | err msg => simp [OnEndWithStreamOutput.loop] at h
    | raise v => simp [OnEndWithStreamOutput.loop] at h
    | frame f =>
      cases hM : Marshal f with
      | err msg => simp [OnEndWithStreamOutput.loop, hM] at h
      | raise v => simp [OnEndWithStreamOutput.loop, hM] at h
      | ok s =>
        cases info with
        | none => simp [OnEndWithStreamOutput.loop, hM] at h
        | some i =>
          have hrest : (OnEndWithStreamOutput.loop Marshal (some i) graphInfoName rest).result =
              .blocked := by
            simp only [OnEndWithStreamOutput.loop, hM] at h
            split at h <;> simpa using h
          intro r hr
          rcases List.mem_cons.mp hr with rfl | hr
          · exact ⟨f, s, rfl, hM⟩
          · exact ih hrest r hr

/-- The loop over frames that all marshal, with a `RunInfo`: it goes through all of
them and carries on with what follows. -/
theorem OnEndWithStreamOutput.loop_frames (i : RunInfo) (json : T → String)
    (frames : List T) (tail : List (RecvResult T))
    (hjson : ∀ f ∈ frames, Marshal f = .ok (json f)) :
    (OnEndWithStreamOutput.loop Marshal (some i) graphInfoName
        (frames.map .frame ++ tail)).result =
      (OnEndWithStreamOutput.loop Marshal (some i) graphInfoName tail).result ∧
    (OnEndWithStreamOutput.loop Marshal (some i) graphInfoName
        (frames.map .frame ++ tail)).trace.count .Recv =
      frames.length +
        (OnEndWithStreamOutput.loop Marshal (some i) graphInfoName tail).trace.count .Recv ∧
    (OnEndWithStreamOutput.loop Marshal (some i) graphInfoName
        (frames.map .frame ++ tail)).trace.filter isFrameLine =
      (if i.Name = graphInfoName then
          frames.map (fun f => Event.Printf "%s: %s\n" [i.Name, json f])
        else []) ++
        (OnEndWithStreamOutput.loop Marshal (some i) graphInfoName tail).trace.filter
          isFrameLine := by
  induction frames with
  | nil => simp
  | cons f fs ih =>
    have hf : Marshal f = .ok (json f) := hjson f (List.mem_cons_self _ _)
    obtain ⟨h1, h2, h3⟩ := ih (fun g hg => hjson g (List.mem_cons_of_mem _ hg))
    simp only [List.map_cons, List.cons_append, OnEndWithStreamOutput.loop, hf]
    by_cases hn : i.Name = graphInfoName
    · simp only [hn, if_true] at h3 ⊢
      refine ⟨h1, ?_, ?_⟩
      · simp [List.count_cons, h2]; omega
      · simp [List.filter_cons, isFrameLine, h3]
    · simp only [hn, if_false] at h3 ⊢
      refine ⟨h1, ?_, ?_⟩
      · simp [List.count_cons, h2]; omega
      · simp [List.filter_cons, isFrameLine, h3]

/-- The loop makes at most one `Recv` call more than there are frames ahead of the
first result of `Recv` that is not a frame. -/
theorem OnEndWithStreamOutput.loop_Recv_le (frames : List T) (stop : RecvResult T)
    (rest : List (RecvResult T)) (hstop : ∀ f, stop ≠ .frame f) :
    (OnEndWithStreamOutput.loop Marshal info graphInfoName
        (frames.map .frame ++ stop :: rest)).trace.count .Recv ≤ frames.length + 1 ∧
    (OnEndWithStreamOutput.loop Marshal info graphInfoName
        (frames.map .frame ++ stop :: rest)).result ≠ .blocked := by
  induction frames with
  | nil =>
    cases stop with
    | frame f => exact absurd rfl (hstop f)
    | EOF => simp [OnEndWithStreamOutput.loop, List.count_cons]
    | err msg => simp [OnEndWithStreamOutput.loop, List.count_cons]
    | raise v => simp [OnEndWithStreamOutput.loop, List.count_cons]
  | cons f fs ih =>
    simp only [List.map_cons, List.cons_append, OnEndWithStreamOutput.loop]
    split
    · simp [List.count_cons]
    · simp [List.count_cons]
    · split
      · simp [List.count_cons]
      · split
        · refine ⟨?_, ih.2⟩
          have := ih.1
          simp [List.count_cons] at this ⊢; omega
        · refine ⟨?_, ih.2⟩
          have := ih.1
          simp [List.count_cons] at this ⊢; omega

/-- The loop of `main` over a run of messages: it logs each of them and carries on
with what follows. -/
theorem main.loop_messages (frames : List Message) (tail : List (RecvResult Message)) :
    (main.loop (frames.map .frame ++ tail)).result = (main.loop tail).result ∧
    (main.loop (frames.map .frame ++ tail)).trace.count .Recv =
      frames.length + (main.loop tail).trace.count .Recv ∧
    (main.loop (frames.map .frame ++ tail)).trace.filter isMessageLine =
      frames.map (fun msg => Event.logPrintf "%v" [msg.Content]) ++
        (main.loop tail).trace.filter isMessageLine := by
  induction frames with
  | nil => simp
  | cons f fs ih =>
    obtain ⟨h1, h2, h3⟩ := ih
    simp only [List.map_cons, List.cons_append, main.loop]
    refine ⟨h1, ?_, ?_⟩
    · simp [List.count_cons, h2]; omega
    · simp [List.filter_cons, isMessageLine, h3]

theorem main.loop_never_closes (l : List (RecvResult Message)) :
    Event.Close ∉ (main.loop l).trace := by
  induction l with
  | nil => simp [main.loop]
  | cons r rest ih =>
    cases r with
    | EOF => simp [main.loop]
    | err msg => simp [main.loop]
    | raise v => simp [main.loop]
    | frame f => simpa [main.loop] using ih

end Loops

/-! ## The goroutine of `OnEndWithStreamOutput` -/

/-- C1. Whatever the results of `Recv` are, whatever `json.Marshal` does, with or
without a `RunInfo`, and whether `Close` returns or panics: when the goroutine of
`OnEndWithStreamOutput` ends, it ends by returning, and `Close` was called on the
stream copy exactly once.  The goroutine fails to end in one case only: every
result of `Recv` was a frame that marshalled, and it waits in a `Recv` that never
returns; so it ends on EOF, on an error or a panic of `Recv`, and on an error or a
panic of `json.Marshal`. -/
theorem OnEndWithStreamOutput.task_closes_exactly_once {T : Type}
    (Marshal : T → MarshalResult) (info : Option RunInfo) (graphInfoName : String)
    (output : StreamReader T) :
    ((OnEndWithStreamOutput.task Marshal info graphInfoName output).result ≠ .blocked →
      (OnEndWithStreamOutput.task Marshal info graphInfoName output).result = .returned () ∧
      (OnEndWithStreamOutput.task Marshal info graphInfoName output).trace.count .Close = 1) ∧
    ((OnEndWithStreamOutput.task Marshal info graphInfoName output).result = .blocked →
      ∀ r ∈ output.recvs, ∃ f s, r = .frame f ∧ Marshal f = .ok s) := by
  have hc := OnEndWithStreamOutput.loop_not_Close Marshal info graphInfoName output.recvs
  have hb := OnEndWithStreamOutput.loop_blocked Marshal info graphInfoName output.recvs
  obtain ⟨recvs, close⟩ := output
  unfold OnEndWithStreamOutput.task OnEndWithStreamOutput.body deferred deferredRecover
    StreamReader.Close at *
  generalize OnEndWithStreamOutput.loop Marshal info graphInfoName recvs = L at *
  obtain ⟨tr, res⟩ := L
  cases res <;> cases close <;>
    simp_all [List.count_cons, List.count_append, List.count_eq_zero_of_not_mem]

/-- Witness for C1: one frame, then the loop panics on a nil `RunInfo`. -/
theorem OnEndWithStreamOutput.task_closes_exactly_once_witness :
    (OnEndWithStreamOutput.task (fun n : Nat => MarshalResult.ok (toString n)) none "ReActAgent"
        ⟨[.frame 1, .EOF], none⟩).result = .returned () ∧
      (OnEndWithStreamOutput.task (fun n : Nat => MarshalResult.ok (toString n)) none "ReActAgent"
        ⟨[.frame 1, .EOF], none⟩).trace.count .Close = 1 :=
  (OnEndWithStreamOutput.task_closes_exactly_once _ _ _ _).1 (by decide)

/-- C2, as stated, fails: when `Recv` panics with "recv" and the deferred `Close`
then panics with "close", the panic "recv" is raised in the goroutine and no
`[OnEndStream] panic err:` line is printed for it; the one line printed carries
"close", the value that `recover()` hands back. -/
theorem OnEndWithStreamOutput.task_logs_last_panic_only :
    Event.raise "recv" ∈
      (OnEndWithStreamOutput.task (fun n : Nat => MarshalResult.ok (toString n)) none "ReActAgent"
        ⟨[.raise "recv"], some "close"⟩).trace ∧
    Event.Println ["[OnEndStream] panic err:", "recv"] ∉
      (OnEndWithStreamOutput.task (fun n : Nat => MarshalResult.ok (toString n)) none "ReActAgent"
        ⟨[.raise "recv"], some "close"⟩).trace ∧
    (OnEndWithStreamOutput.task (fun n : Nat => MarshalResult.ok (toString n)) none "ReActAgent"
        ⟨[.raise "recv"], some "close"⟩).trace =
      [.Println ["=========[OnEndStream]========="], .Recv, .raise "recv", .Close,
        .raise "close", .Println ["[OnEndStream] panic err:", "close"]] := by
  decide

/-- C2, amended. No panic leaves the goroutine of `OnEndWithStreamOutput`: its
outcome is never a panic.  For every panic raised in it (by `Recv`, by
`json.Marshal`, by `info.Name` on a nil `RunInfo` or by the deferred `Close`), the
goroutine returns, and the last thing it does is print the `[OnEndStream] panic
err:` line with the value that `recover()` hands back, the value of the last panic
raised.  So a panic is logged with its own value when it is the only one raised,
and every panic is when `Close` returns; when `Close` panics, the line carries the
value of that panic, and a panic raised before it in the loop is recovered without
a line of its own. -/
theorem OnEndWithStreamOutput.task_recovers {T : Type}
    (Marshal : T → MarshalResult) (info : Option RunInfo) (graphInfoName : String)
    (output : StreamReader T) :
    (∀ v, (OnEndWithStreamOutput.task Marshal info graphInfoName output).result ≠ .panicking v) ∧
    (∀ v, Event.raise v ∈ (OnEndWithStreamOutput.task Marshal info graphInfoName output).trace →
      (OnEndWithStreamOutput.task Marshal info graphInfoName output).result = .returned () ∧
      ∃ w, ((OnEndWithStreamOutput.task Marshal info graphInfoName output).trace.filter
          isRaise).getLast? = some (.raise w) ∧
        (OnEndWithStreamOutput.task Marshal info graphInfoName output).trace.getLast? =
          some (.Println ["[OnEndStream] panic err:", w])) ∧
    (∀ v, (OnEndWithStreamOutput.task Marshal info graphInfoName output).trace.filter isRaise =
        [.raise v] →
      (OnEndWithStreamOutput.task Marshal info graphInfoName output).trace.getLast? =
        some (.Println ["[OnEndStream] panic err:", v])) ∧
    (∀ v, output.close = none →
      Event.raise v ∈ (OnEndWithStreamOutput.task Marshal info graphInfoName output).trace →
      (OnEndWithStreamOutput.task Marshal info graphInfoName output).trace.getLast? =
        some (.Println ["[OnEndStream] panic err:", v])) ∧
    (∀ w, output.close = some w →
      Event.Close ∈ (OnEndWithStreamOutput.task Marshal info graphInfoName output).trace →
      (OnEndWithStreamOutput.task Marshal info graphInfoName output).trace.getLast? =
        some (.Println ["[OnEndStream] panic err:", w])) := by
  have hr := OnEndWithStreamOutput.loop_raises Marshal info graphInfoName output.recvs
  have hc := OnEndWithStreamOutput.loop_not_Close Marshal info graphInfoName output.recvs
  obtain ⟨recvs, close⟩ := output
  unfold OnEndWithStreamOutput.task OnEndWithStreamOutput.body deferred deferredRecover
    StreamReader.Close at *
  generalize OnEndWithStreamOutput.loop Marshal info graphInfoName recvs = L at *
  obtain ⟨tr, res⟩ := L
  have hd : isRaise (.Println ["=========[OnEndStream]========="]) = false := rfl
  have hmem : ∀ v, Event.raise v ∈ tr → Event.raise v ∈ tr.filter isRaise :=
    fun v hv => List.mem_filter.mpr ⟨hv, rfl⟩
  replace hc : Event.Close ∉ tr := hc
  cases res <;> cases close <;>
    simp only [List.cons_append, List.append_assoc, List.filter_cons, List.filter_append,
      List.filter_nil, hd, isRaise, getLast?_cons_append, List.nil_append,
      List.singleton_append] at hr hmem ⊢ <;>
    simp only [hr] at hmem ⊢ <;>
    simp [hc] <;>
    first
      | simpa using hmem
      | (intro v hv; simpa [eq_comm] using hmem v hv)
      | exact ⟨fun v hv => by simpa using hmem v hv,
          fun v hv => absurd (hmem v hv) (by simp)⟩

/-- Witness for C2: `Recv` panics and then the deferred `Close` panics as well. -/
theorem OnEndWithStreamOutput.task_recovers_witness :
    (OnEndWithStreamOutput.task (fun n : Nat => MarshalResult.ok (toString n)) none "ReActAgent"
        ⟨[.raise "recv"], some "close"⟩).result = .returned () ∧
      ∃ w, ((OnEndWithStreamOutput.task (fun n : Nat => MarshalResult.ok (toString n)) none
          "ReActAgent" ⟨[.raise "recv"], some "close"⟩).trace.filter isRaise).getLast? =
          some (.raise w) ∧
        (OnEndWithStreamOutput.task (fun n : Nat => MarshalResult.ok (toString n)) none
          "ReActAgent" ⟨[.raise "recv"], some "close"⟩).trace.getLast? =
          some (.Println ["[OnEndStream] panic err:", w]) :=
  (OnEndWithStreamOutput.task_recovers _ _ _ _).2.1 "recv" (by decide)

/-- C4. With a `RunInfo` and a stream of frames that all marshal, followed by EOF,
the goroutine of `OnEndWithStreamOutput` prints the frame lines
`fmt.Printf("%s: %s\n", info.Name, string(s))` as follows: when `info.Name` is
`react.GraphName`, one line for each frame, in the order of the frames, and no
other; when it is not, none. -/
theorem OnEndWithStreamOutput.task_frame_lines {T : Type}
    (Marshal : T → MarshalResult) (graphInfoName : String) (i : RunInfo) (json : T → String)
    (frames : List T) (rest : List (RecvResult T)) (close : Option String)
    (hjson : ∀ f ∈ frames, Marshal f = .ok (json f)) :
    (OnEndWithStreamOutput.task Marshal (some i) graphInfoName
        ⟨frames.map .frame ++ .EOF :: rest, close⟩).trace.filter isFrameLine =
      if i.Name = graphInfoName then
        frames.map (fun f => Event.Printf "%s: %s\n" [i.Name, json f])
      else [] := by
  obtain ⟨h1, -, h3⟩ := OnEndWithStreamOutput.loop_frames Marshal graphInfoName i json frames
    (.EOF :: rest) hjson
  unfold OnEndWithStreamOutput.task OnEndWithStreamOutput.body deferred deferredRecover
    StreamReader.Close
  generalize OnEndWithStreamOutput.loop Marshal (some i) graphInfoName
    (frames.map .frame ++ .EOF :: rest) = L at *
  obtain ⟨tr, res⟩ := L
  simp only [OnEndWithStreamOutput.loop] at h1 h3
  simp only [List.filter_cons, List.filter_nil, isFrameLine, List.append_nil] at h3
  subst h1
  cases close <;> simp [List.filter_cons, List.filter_append, isFrameLine, h3]

/-- Witness for C4: two frames under the name of the graph. -/
theorem OnEndWithStreamOutput.task_frame_lines_witness :
    (OnEndWithStreamOutput.task (fun n : Nat => MarshalResult.ok (toString n))
        (some ⟨"ReActAgent", "", ""⟩) "ReActAgent"
        ⟨[1, 2].map .frame ++ .EOF :: [], none⟩).trace.filter isFrameLine =
      if (RunInfo.mk "ReActAgent" "" "").Name = "ReActAgent" then
        [1, 2].map (fun f => Event.Printf "%s: %s\n" ["ReActAgent", toString f])
      else [] :=
  OnEndWithStreamOutput.task_frame_lines _ "ReActAgent" ⟨"ReActAgent", "", ""⟩ _ [1, 2] [] none
    (fun _ _ => rfl)

/-- C10. The `Recv` calls of the goroutine of `OnEndWithStreamOutput`.  With a
`RunInfo` of any name and `N` frames that all marshal, followed by EOF, it makes
exactly `N + 1` `Recv` calls.  For every stream in which `N` frames are ahead of
the first result of `Recv` that is not a frame (EOF, an error, a panic), it makes
at most `N + 1` `Recv` calls, none after that result, and it ends.  For every
stream, no `Recv` call follows a `Close` call. -/
theorem OnEndWithStreamOutput.task_Recv_calls {T : Type}
    (Marshal : T → MarshalResult) (info : Option RunInfo) (graphInfoName : String) :
    (∀ (i : RunInfo) (json : T → String) (frames : List T) (rest : List (RecvResult T))
        (close : Option String), (∀ f ∈ frames, Marshal f = .ok (json f)) →
      (OnEndWithStreamOutput.task Marshal (some i) graphInfoName
        ⟨frames.map .frame ++ .EOF :: rest, close⟩).trace.count .Recv = frames.length + 1) ∧
    (∀ (frames : List T) (stop : RecvResult T) (rest : List (RecvResult T))
        (close : Option String), (∀ f, stop ≠ .frame f) →
      (OnEndWithStreamOutput.task Marshal info graphInfoName
        ⟨frames.map .frame ++ stop :: rest, close⟩).trace.count .Recv ≤ frames.length + 1 ∧
      (OnEndWithStreamOutput.task Marshal info graphInfoName
        ⟨frames.map .frame ++ stop :: rest, close⟩).result = .returned ()) ∧
    (∀ (output : StreamReader T) (pre post : List Event),
      (OnEndWithStreamOutput.task Marshal info graphInfoName output).trace =
        pre ++ .Close :: post → Event.Recv ∉ post) := by
  refine ⟨?_, ?_, ?_⟩
  · intro i json frames rest close hjson
    obtain ⟨h1, h2, -⟩ := OnEndWithStreamOutput.loop_frames Marshal graphInfoName i json frames
      (.EOF :: rest) hjson
    unfold OnEndWithStreamOutput.task OnEndWithStreamOutput.body deferred deferredRecover
      StreamReader.Close
    generalize OnEndWithStreamOutput.loop Marshal (some i) graphInfoName
      (frames.map .frame ++ .EOF :: rest) = L at *
    obtain ⟨tr, res⟩ := L
    simp only [OnEndWithStreamOutput.loop] at h1 h2
    simp only [List.count_cons, List.count_nil, beq_self_eq_true, if_true] at h2
    subst h1
    cases close <;> simp [List.count_cons, List.count_append, h2]
  · intro frames stop rest close hstop
    obtain ⟨h1, h2⟩ := OnEndWithStreamOutput.loop_Recv_le Marshal info graphInfoName frames stop
      rest hstop
    unfold OnEndWithStreamOutput.task OnEndWithStreamOutput.body deferred deferredRecover
      StreamReader.Close
    generalize OnEndWithStreamOutput.loop Marshal info graphInfoName
      (frames.map .frame ++ stop :: rest) = L at *
    obtain ⟨tr, res⟩ := L
    cases res <;> cases close <;> simp_all [List.count_cons, List.count_append]
  · intro output pre post h
    have hc := OnEndWithStreamOutput.loop_not_Close Marshal info graphInfoName output.recvs
    obtain ⟨recvs, close⟩ := output
    unfold OnEndWithStreamOutput.task OnEndWithStreamOutput.body deferred deferredRecover
      StreamReader.Close at h
    generalize OnEndWithStreamOutput.loop Marshal info graphInfoName recvs = L at *
    obtain ⟨tr, res⟩ := L
    have hA : Event.Close ∉ Event.Println ["=========[OnEndStream]========="] :: tr := by
      simpa using hc
    cases res with
    | blocked =>
      simp only [] at h
      exact absurd (by rw [h]; simp) hA
    | returned a =>
      cases close with
      | none =>
        simp only [] at h
        exact not_mem_after Event.Close Event.Recv _ [] pre post hA (by simp) (by simpa using h)
      | some w =>
        simp only [] at h
        exact not_mem_after Event.Close Event.Recv _
          [.raise w, .Println ["[OnEndStream] panic err:", w]] pre post hA (by simp)
          (by simpa using h)
    | panicking v =>
      cases close with
      | none =>
        simp only [] at h
        exact not_mem_after Event.Close Event.Recv _
          [.Println ["[OnEndStream] panic err:", v]] pre post hA (by simp) (by simpa using h)
      | some w =>
        simp only [] at h
        exact not_mem_after Event.Close Event.Recv _
          [.raise w, .Println ["[OnEndStream] panic err:", w]] pre post hA (by simp)
          (by simpa using h)

/-- Witness for C10: two frames, then an error; a third frame is never asked for. -/
theorem OnEndWithStreamOutput.task_Recv_calls_witness :
    (OnEndWithStreamOutput.task (fun n : Nat => MarshalResult.ok (toString n))
        (some ⟨"ChatModel", "", ""⟩) "ReActAgent"
        ⟨[1, 2].map .frame ++ .err "broken" :: [.frame 3, .EOF], none⟩).trace.count .Recv ≤
        [1, 2].length + 1 ∧
      (OnEndWithStreamOutput.task (fun n : Nat => MarshalResult.ok (toString n))
        (some ⟨"ChatModel", "", ""⟩) "ReActAgent"
        ⟨[1, 2].map .frame ++ .err "broken" :: [.frame 3, .EOF], none⟩).result = .returned () :=
  (OnEndWithStreamOutput.task_Recv_calls _ _ _).2.1 [1, 2] (.err "broken") [.frame 3, .EOF] none
    (by intro f; exact RecvResult.noConfusion)

/-! ## The hooks -/

/-- C3, as stated, fails: handed a stream copy that holds one frame followed by
EOF, `OnStartWithStreamInput` makes no `Recv` call at all, so it drains nothing;
its only call is `Close`. -/
theorem OnStartWithStreamInput_does_not_drain :
    ¬ 1 ≤ (OnStartWithStreamInput "ctx" none
        (⟨[.frame "a", .EOF], none⟩ : StreamReader String)).trace.count .Recv ∧
    (OnStartWithStreamInput "ctx" none
        (⟨[.frame "a", .EOF], none⟩ : StreamReader String)).trace = [.Close] := by
  decide

/-- C3, amended. For every stream copy, whatever it holds, `OnStartWithStreamInput`
makes no `Recv` call on it and calls `Close` on it exactly once; when that `Close`
returns the hook returns its context, and when it panics the panic leaves the hook. -/
theorem OnStartWithStreamInput_closes_without_reading {C T : Type}
    (ctx : C) (info : Option RunInfo) (input : StreamReader T) :
    (OnStartWithStreamInput ctx info input).trace.count .Recv = 0 ∧
    (OnStartWithStreamInput ctx info input).trace.count .Close = 1 ∧
    (OnStartWithStreamInput ctx info input).result =
      match input.close with
      | none => .returned ctx
      | some v => .panicking v := by
  obtain ⟨recvs, close⟩ := input
  cases close <;> simp [OnStartWithStreamInput, deferred, StreamReader.Close, List.count_cons]

/-- C5. The call of `OnEndWithStreamOutput` itself, on the path of its caller, makes
no `Recv` and no `Close` call and returns its context, for every stream; all it
does with the stream is start one goroutine, the one that drains and closes it.
This holds for a stream whose `Recv` never returns too: there the goroutine is
stuck for ever, and the call has returned all the same. -/
theorem OnEndWithStreamOutput_caller_path {C T : Type}
    (Marshal : T → MarshalResult) (graphInfoName : String) (ctx : C) (info : Option RunInfo)
    (output : StreamReader T) :
    (OnEndWithStreamOutput Marshal graphInfoName ctx info output).caller.result = .returned ctx ∧
    Event.Recv ∉ (OnEndWithStreamOutput Marshal graphInfoName ctx info output).caller.trace ∧
    Event.Close ∉ (OnEndWithStreamOutput Marshal graphInfoName ctx info output).caller.trace ∧
    (OnEndWithStreamOutput Marshal graphInfoName ctx info output).spawned =
      [OnEndWithStreamOutput.task Marshal info graphInfoName output] ∧
    (output.recvs = [] →
      (OnEndWithStreamOutput.task Marshal info graphInfoName output).result = .blocked ∧
      (OnEndWithStreamOutput Marshal graphInfoName ctx info output).caller.result =
        .returned ctx) := by
  refine ⟨rfl, by simp [OnEndWithStreamOutput], by simp [OnEndWithStreamOutput], rfl, ?_⟩
  intro h
  obtain ⟨recvs, close⟩ := output
  subst h
  exact ⟨rfl, rfl⟩

/-- Witness for C5: a stream whose first `Recv` never returns. -/
theorem OnEndWithStreamOutput_caller_path_witness :
    (OnEndWithStreamOutput.task (fun n : Nat => MarshalResult.ok (toString n)) none "ReActAgent"
        ⟨[], none⟩).result = .blocked ∧
      (OnEndWithStreamOutput (fun n : Nat => MarshalResult.ok (toString n)) "ReActAgent" "ctx" none
        ⟨[], none⟩).caller.result = .returned "ctx" :=
  (OnEndWithStreamOutput_caller_path _ "ReActAgent" "ctx" none ⟨[], none⟩).2.2.2.2 rfl

/-- C6, as stated, fails: handed a stream copy whose `Close` panics,
`OnStartWithStreamInput` does not return its context, the panic leaves it; and
`OnStart` does not return its context when `json.MarshalIndent` panics on the input. -/
theorem hooks_may_not_return :
    (OnStartWithStreamInput "ctx" none (⟨[.EOF], some "close"⟩ : StreamReader String)).result ≠
        .returned "ctx" ∧
    (OnStartWithStreamInput "ctx" none (⟨[.EOF], some "close"⟩ : StreamReader String)).result =
        .panicking "close" ∧
    (OnStart (fun _ : String => MarshalResult.raise "marshal") "ctx" none "input").result =
        .panicking "marshal" := by
  decide

/-- C6, amended. A hook of `LoggerCallback` that returns hands back exactly the
context it was given, and nothing else.  `OnError` and `OnEndWithStreamOutput`
return for every input; `OnStart` and `OnEnd` return unless `json.MarshalIndent`
panics on the payload, and `OnStartWithStreamInput` returns unless `Close` panics on
the stream copy: then that panic leaves the hook.  All `OnStart` does with its
input is marshal and print it, and all `OnError` does with the error is print it. -/
theorem hooks_return_their_context {C I O T : Type}
    (MarshalInput : I → MarshalResult) (MarshalOutput : O → MarshalResult)
    (Marshal : T → MarshalResult) (graphInfoName : String)
    (ctx : C) (info : Option RunInfo) (input : I) (output : O) (err : String)
    (streamOutput streamInput : StreamReader T) :
    (OnStart MarshalInput ctx info input).result =
      (match MarshalInput input with
        | .raise v => .panicking v
        | _ => .returned ctx) ∧
    (∀ s, MarshalInput input = .ok s →
      OnStart MarshalInput ctx info input =
        ⟨[.Println ["=================="], .Printf "[OnStart] %s\n" [s]], .returned ctx⟩) ∧
    (OnEnd MarshalOutput ctx info output).result =
      (match MarshalOutput output with
        | .raise v => .panicking v
        | _ => .returned ctx) ∧
    OnError ctx info err =
      ⟨[.Println ["=========[OnError]========="], .Println [err]], .returned ctx⟩ ∧
    (OnEndWithStreamOutput Marshal graphInfoName ctx info streamOutput).caller.result =
      .returned ctx ∧
    (OnStartWithStreamInput ctx info streamInput).result =
      (match streamInput.close with
        | none => .returned ctx
        | some v => .panicking v) := by
  refine ⟨?_, ?_, ?_, rfl, rfl, ?_⟩
  · unfold OnStart; cases MarshalInput input <;> rfl
  · intro s hs; unfold OnStart; rw [hs]
  · unfold OnEnd; cases MarshalOutput output <;> rfl
  · obtain ⟨recvs, close⟩ := streamInput
    cases close <;> rfl

/-- Witness for C6: `OnStart` on an input that marshals. -/
theorem hooks_return_their_context_witness :
    OnStart (fun n : Nat => MarshalResult.ok (toString n)) "ctx" none 7 =
      ⟨[.Println ["=================="], .Printf "[OnStart] %s\n" ["7"]], .returned "ctx"⟩ :=
  (hooks_return_their_context (fun n : Nat => MarshalResult.ok (toString n))
    (fun n : Nat => MarshalResult.ok (toString n)) (fun n : Nat => MarshalResult.ok (toString n))
    "ReActAgent" "ctx" none 7 7 "failed" ⟨[], none⟩ ⟨[], none⟩).2.1 "7" rfl

/-! ## `QueryWeatherFunc` -/

/-- C7. With a nil `City`, `QueryWeatherFunc` panics on `*params.City` (a nil
pointer dereference) before it requests anything: no URL is requested, the default
one included.  With the empty string as `City` it requests the default location
`https://wttr.in/?T` and no other URL. -/
theorem QueryWeatherFunc_no_city (PathEscape : String → String)
    (Get : String → Except String Response) :
    (QueryWeatherFunc PathEscape Get ⟨none⟩).result = .panicking nilDereference ∧
    (∀ url, Event.Get url ∉ (QueryWeatherFunc PathEscape Get ⟨none⟩).trace) ∧
    (∀ url, Event.Get url ∈ (QueryWeatherFunc PathEscape Get ⟨some ""⟩).trace ↔
      url = "https://wttr.in/?T") := by
  refine ⟨rfl, by simp [QueryWeatherFunc], ?_⟩
  intro url
  have h0 : ¬ ("".utf8ByteSize > 0) := by decide
  simp only [QueryWeatherFunc, QueryWeatherFunc.reqUrl, h0, if_false]
  cases Get "https://wttr.in/?T" with
  | error e => simp
  | ok resp =>
    obtain ⟨data, readErr⟩ := resp
    cases readErr <;> simp [deferred, eq_comm]

/-- C8, as stated, fails: when the HTTP GET returns an error, `QueryWeatherFunc`
does not return it as its error result; it does not return at all, it panics with
that error. -/
theorem QueryWeatherFunc_Get_error_panics :
    (QueryWeatherFunc id (fun _ => .error "connection refused") ⟨some "Paris"⟩).result =
      .panicking "connection refused" ∧
    ¬ ∃ reply, (QueryWeatherFunc id (fun _ => .error "connection refused")
        ⟨some "Paris"⟩).result = .returned (reply, some "connection refused") := by
  refine ⟨rfl, ?_⟩
  rintro ⟨reply, h⟩
  exact Outcome.noConfusion h

/-- C8, amended. With a `City`, when the HTTP GET returns an error, or reading the
body returns an error, `QueryWeatherFunc` panics with that error and returns
nothing; when both succeed it returns the body and a nil error.  Whenever it
returns, the error is nil, the body was read without error and the string is
exactly the body. -/
theorem QueryWeatherFunc_failures (PathEscape : String → String)
    (Get : String → Except String Response) (city : String) :
    (∀ e, Get (QueryWeatherFunc.reqUrl PathEscape city) = .error e →
      (QueryWeatherFunc PathEscape Get ⟨some city⟩).result = .panicking e) ∧
    (∀ resp e, Get (QueryWeatherFunc.reqUrl PathEscape city) = .ok resp →
      resp.readErr = some e →
      (QueryWeatherFunc PathEscape Get ⟨some city⟩).result = .panicking e) ∧
    (∀ resp, Get (QueryWeatherFunc.reqUrl PathEscape city) = .ok resp →
      resp.readErr = none →
      (QueryWeatherFunc PathEscape Get ⟨some city⟩).result = .returned (resp.data, none)) ∧
    (∀ params reply err,
      (QueryWeatherFunc PathEscape Get params).result = .returned (reply, err) →
      err = none ∧ ∃ c resp, params.City = some c ∧
        Get (QueryWeatherFunc.reqUrl PathEscape c) = .ok resp ∧
        resp.readErr = none ∧ reply = resp.data) := by
  refine ⟨?_, ?_, ?_, ?_⟩
  · intro e he
    simp [QueryWeatherFunc, he]
  · intro resp e hg hr
    simp [QueryWeatherFunc, hg, hr, deferred]
  · intro resp hg hr
    simp [QueryWeatherFunc, hg, hr, deferred]
  · intro params reply err h
    obtain ⟨c⟩ := params
    cases c with
    | none => simp [QueryWeatherFunc] at h
    | some c =>
      cases hg : Get (QueryWeatherFunc.reqUrl PathEscape c) with
      | error e => simp [QueryWeatherFunc, hg] at h
      | ok resp =>
        cases hr : resp.readErr with
        | some e => simp [QueryWeatherFunc, hg, hr, deferred] at h
        | none =>
          simp [QueryWeatherFunc, hg, hr, deferred] at h
          exact ⟨h.2.symm, c, resp, rfl, hg, hr, h.1.symm⟩

/-- Witness for C8: the body cannot be read to its end. -/
theorem QueryWeatherFunc_failures_witness :
    (QueryWeatherFunc id (fun _ => .ok ⟨"Weather rep", some "unexpected EOF"⟩)
      ⟨some "Paris"⟩).result = .panicking "unexpected EOF" :=
  (QueryWeatherFunc_failures id (fun _ => .ok ⟨"Weather rep", some "unexpected EOF"⟩)
    "Paris").2.1 ⟨"Weather rep", some "unexpected EOF"⟩ "unexpected EOF" rfl rfl

/-! ## `main` -/

/-- C9. Once `ragent.Stream` has handed `main` a reader: whenever `main` ends, it
has called `Close` on the reader exactly once.  When the results of `Recv` are `N`
messages followed by EOF or by an error, `main` ends (it returns when `Close`
returns), has closed the reader exactly once, has logged the `N` messages, one
line each, in the order received, and has made exactly `N + 1` `Recv` calls: none
after the EOF or the error. -/
theorem main_closes_reader :
    (∀ sr : StreamReader Message, (main (.ok sr)).result ≠ .blocked →
      (main (.ok sr)).trace.count .Close = 1) ∧
    (∀ (frames : List Message) (stop : RecvResult Message) (rest : List (RecvResult Message))
        (close : Option String), (stop = .EOF ∨ ∃ e, stop = .err e) →
      (main (.ok ⟨frames.map .frame ++ stop :: rest, close⟩)).trace.count .Close = 1 ∧
      (main (.ok ⟨frames.map .frame ++ stop :: rest, close⟩)).trace.filter isMessageLine =
        frames.map (fun msg => Event.logPrintf "%v" [msg.Content]) ∧
      (main (.ok ⟨frames.map .frame ++ stop :: rest, close⟩)).trace.count .Recv =
        frames.length + 1 ∧
      (main (.ok ⟨frames.map .frame ++ stop :: rest, close⟩)).result =
        match close with
        | none => .returned ()
        | some v => .panicking v) := by
  constructor
  · intro sr hends
    have hc := main.loop_never_closes sr.recvs
    obtain ⟨recvs, close⟩ := sr
    simp only [main] at *
    unfold main.body deferred StreamReader.Close at *
    generalize main.loop recvs = L at *
    obtain ⟨tr, res⟩ := L
    rcases res with (_ | _) | v | _ <;> cases close <;>
      simp_all [List.count_cons, List.count_append, List.count_eq_zero_of_not_mem]
  · intro frames stop rest close hstop
    have hc := main.loop_never_closes (frames.map .frame ++ stop :: rest)
    obtain ⟨h1, h2, h3⟩ := main.loop_messages frames (stop :: rest)
    simp only [main]
    unfold main.body deferred StreamReader.Close
    generalize main.loop (frames.map .frame ++ stop :: rest) = L at *
    obtain ⟨tr, res⟩ := L
    rcases hstop with rfl | ⟨e, rfl⟩
    · simp only [main.loop] at h1 h2 h3
      simp only [List.count_cons, List.count_nil, beq_self_eq_true, if_true, List.filter_cons,
        List.filter_nil, isMessageLine, List.append_nil] at h2 h3
      subst h1
      cases close <;>
        simp_all [List.count_cons, List.count_append, List.count_eq_zero_of_not_mem,
          List.filter_cons, List.filter_append, isMessageLine]
    · simp only [main.loop] at h1 h2 h3
      have hm : isMessageLine (.logPrintf "failed to recv: %v" [Arg.text e]) = false := rfl
      simp only [List.count_cons, List.count_nil, beq_self_eq_true, if_true, List.filter_cons,
        List.filter_nil, isMessageLine, hm, List.append_nil] at h2 h3
      subst h1
      cases close <;>
        simp_all [List.count_cons, List.count_append, List.count_eq_zero_of_not_mem,
          List.filter_cons, List.filter_append, isMessageLine]

/-- Witness for C9: two messages, then an error; what follows is never read. -/
theorem main_closes_reader_witness :
    (main (.ok ⟨[Message.mk "assistant" "Hel", Message.mk "assistant" "lo"].map .frame ++
        .err "broken" :: [.frame ⟨"assistant", "!"⟩, .EOF], none⟩)).trace.count .Close = 1 ∧
      (main (.ok ⟨[Message.mk "assistant" "Hel", Message.mk "assistant" "lo"].map .frame ++
        .err "broken" :: [.frame ⟨"assistant", "!"⟩, .EOF], none⟩)).trace.filter isMessageLine =
        [Message.mk "assistant" "Hel", Message.mk "assistant" "lo"].map
          (fun msg : Message => Event.logPrintf "%v" [msg.Content]) ∧
      (main (.ok ⟨[Message.mk "assistant" "Hel", Message.mk "assistant" "lo"].map .frame ++
        .err "broken" :: [.frame ⟨"assistant", "!"⟩, .EOF], none⟩)).trace.count .Recv =
        [Message.mk "assistant" "Hel", Message.mk "assistant" "lo"].length + 1 ∧
      (main (.ok ⟨[Message.mk "assistant" "Hel", Message.mk "assistant" "lo"].map .frame ++
        .err "broken" :: [.frame ⟨"assistant", "!"⟩, .EOF], none⟩)).result =
        .returned () :=
  main_closes_reader.2 [Message.mk "assistant" "Hel", Message.mk "assistant" "lo"] (.err "broken")
    [.frame ⟨"assistant", "!"⟩, .EOF] none (Or.inr ⟨"broken", rfl⟩)

end ReactDemo
